import Mathlib

/-!
Verification of the cloki log-shipping library (src/src/logger.ts) against its
natural-language specification.  The definitions below are a shallow embedding
of the TypeScript source: JavaScript objects of string-valued labels become
ordered association lists with JS assignment semantics (`objInsert`), the
`fetch`/`console`/`waitUntil` effects become an explicit event trace, thrown
exceptions become an `Option String` error channel, and `Date.now()` is an
explicit `Nat` parameter.
-/

namespace Cloki

/-- Log levels, mirroring `type LogLevel = "debug" | "info" | "warn" | "error"`. -/
inductive LogLevel
  | debug
  | info
  | warn
  | error
deriving DecidableEq

/-- Mirrors `LOG_LEVEL_PRIORITY` in the source. -/
def levelPriority : LogLevel → Nat
  | .debug => 0
  | .info => 1
  | .warn => 2
  | .error => 3

/-- The string name of each level, as used for the `level` stream label. -/
def levelName : LogLevel → String
  | .debug => "debug"
  | .info => "info"
  | .warn => "warn"
  | .error => "error"

/-- A JS object of string-valued labels, in insertion order (`LokiLabels`). -/
abbrev Labels := List (String × String)

/-- Property access `o[k]` on a JS object: the value at the first (hence, in a
genuine object, only) occurrence of key `k`. -/
def lookupKey (k : String) : Labels → Option String
  | [] => none
  | (k', v) :: rest => if k = k' then some v else lookupKey k rest

/-- Whether the key `k` already occurs in the object `o`. -/
def keyMem (k : String) (o : Labels) : Bool :=
  o.any (fun p => p.1 == k)

/-- JS property assignment `o[k] = v`: if `k` is present its value is updated
in place (key position preserved), otherwise the pair is appended. -/
def objInsert (o : Labels) (kv : String × String) : Labels :=
  if keyMem kv.1 o then
    o.map (fun p => if p.1 == kv.1 then (p.1, kv.2) else p)
  else
    o ++ [kv]

/-- JS object spread: assign every pair of `l` into `o` from left to right
(later assignments win on key conflict). -/
def objExtend (o : Labels) (l : Labels) : Labels :=
  l.foldl objInsert o

/-- The last value bound to `k` in the pair list `l`, i.e. the value a JS
object literal built from `l` would hold at key `k`. -/
def lastVal (l : Labels) (k : String) : Option String :=
  lookupKey k l.reverse

/-- A JSON value, the shape of structured log message payloads. -/
inductive Jx
  | str (s : String)
  | num (n : Int)
  | obj (fields : List (String × Jx))

/-- Decimal digit character for a digit value below ten. -/
def digCh (d : Nat) : Char :=
  if d = 0 then '0' else if d = 1 then '1' else if d = 2 then '2'
  else if d = 3 then '3' else if d = 4 then '4' else if d = 5 then '5'
  else if d = 6 then '6' else if d = 7 then '7' else if d = 8 then '8' else '9'

/-- Big-endian decimal digits of `n`, prepended onto `acc`. -/
def natRepAux (n : Nat) (acc : List Char) : List Char :=
  let acc' := digCh (n % 10) :: acc
  if n < 10 then acc' else natRepAux (n / 10) acc'
termination_by n
decreasing_by exact Nat.div_lt_self (by omega) (by omega)

/-- Decimal representation of a natural number, as JS `Number.prototype.toString`
renders a nonnegative integer. -/
def natRep (n : Nat) : String :=
  ⟨natRepAux n []⟩

/-- Lowercase hexadecimal digit character. -/
def hexCh (d : Nat) : Char :=
  if d < 10 then digCh d
  else if d = 10 then 'a' else if d = 11 then 'b' else if d = 12 then 'c'
  else if d = 13 then 'd' else if d = 14 then 'e' else 'f'

/-- JSON escaping of one character, as `JSON.stringify` performs it on the
characters of a string value. -/
def escChar (c : Char) : List Char :=
  if c = '"' then ['\\', '"']
  else if c = '\\' then ['\\', '\\']
  else if c = '\n' then ['\\', 'n']
  else if c = '\r' then ['\\', 'r']
  else if c = '\t' then ['\\', 't']
  else if c.toNat = 8 then ['\\', 'b']
  else if c.toNat = 12 then ['\\', 'f']
  else if c.toNat < 32 then ['\\', 'u', '0', '0', hexCh (c.toNat / 16), hexCh (c.toNat % 16)]
  else [c]

/-- JSON escaping of a character list. -/
def escList (l : List Char) : List Char :=
  (l.map escChar).flatten

/-- JSON escaping of a string. -/
def escapeString (s : String) : String :=
  ⟨escList s.data⟩

/-- A JSON string literal: the escaped text within double quotes. -/
def quoteStr (s : String) : String :=
  "\"" ++ escapeString s ++ "\""

/-- Decimal rendering of an integer. -/
def intRep (n : Int) : String :=
  if n < 0 then "-" ++ natRep n.natAbs else natRep n.natAbs

mutual

/-- `JSON.stringify` of a JSON value. -/
def stringifyJx : Jx → String
  | .str s => quoteStr s
  | .num n => intRep n
  | .obj fields => "\x7b" ++ stringifyFields fields ++ "\x7d"

/-- `JSON.stringify` of the comma-separated members of a JSON object. -/
def stringifyFields : List (String × Jx) → String
  | [] => ""
  | [(k, v)] => quoteStr k ++ ":" ++ stringifyJx v
  | (k, v) :: rest => quoteStr k ++ ":" ++ stringifyJx v ++ "," ++ stringifyFields rest

end

/-- `JSON.stringify` of a JSON object given by its field list. -/
def stringifyObj (fields : List (String × Jx)) : String :=
  "\x7b" ++ stringifyFields fields ++ "\x7d"

/-- `JSON.stringify` of a flat string-to-string object, such as a stream's
label set. -/
def stringifyLabels (o : Labels) : String :=
  "\x7b" ++ String.intercalate ","
    (o.map (fun kv => quoteStr kv.1 ++ ":" ++ quoteStr kv.2)) ++ "\x7d"

/-- The base64 alphabet used by `btoa`. -/
def base64Table : List Char :=
  "ABCDEFGHIJKLMNOPQRSTUVWXYZabcdefghijklmnopqrstuvwxyz0123456789+/".data

/-- Character of the base64 alphabet at a six-bit index. -/
def b64At (n : Nat) : Char :=
  base64Table.getD n 'A'

/-- Base64 encoding of a byte list, three bytes at a time. -/
def btoaChunks : List Nat → List Char
  | [] => []
  | [a] => [b64At (a / 4), b64At (a % 4 * 16), '=', '=']
  | [a, b] => [b64At (a / 4), b64At (a % 4 * 16 + b / 16), b64At (b % 16 * 4), '=']
  | a :: b :: c :: rest =>
    b64At (a / 4) :: b64At (a % 4 * 16 + b / 16) :: b64At (b % 16 * 4 + c / 64)
      :: b64At (c % 64) :: btoaChunks rest

/-- The `btoa` builtin: base64 of a string of eight-bit code units. -/
def btoa (s : String) : String :=
  ⟨btoaChunks (s.data.map Char.toNat)⟩

/-- Cloudflare request metadata (`CfProperties` in the source): the four
fields the logger reads; further fields are ignored by the code. -/
structure CfProperties where
  colo : Option String := none
  country : Option String := none
  city : Option String := none
  asn : Option Nat := none

/-- The Loki push envelope (`LokiMessage`): exactly one stream carrying one
label object and one timestamp/line value pair. -/
structure LokiMessage where
  stream : Labels
  ts : String
  line : String
deriving DecidableEq

/-- The logger configuration (`LokiConfig`).  Absent optional fields are
`none`; `onSendError` records whether a failure callback is configured (the
callback itself is an external observer, represented by the `hookCall`
event it receives). -/
structure LokiConfig where
  lokiHost : Option String := none
  lokiToken : Option String := none
  lokiUser : Option String := none
  defaultLabels : Labels := []
  minLevel : Option LogLevel := none
  retries : Option Nat := none
  onSendError : Bool := false
  format : Option (LogLevel → List (String × Jx) → Labels → LokiMessage) := none
  silent : Bool := false
  cf : Option CfProperties := none
  ctx : Option Nat := none

/-- JS truthiness of an optional string: `undefined` and `""` are falsy. -/
def truthyStr : Option String → Bool
  | none => false
  | some s => !s.isEmpty

/-- A log call's payload: a string or a structured object. -/
inductive LogMessage
  | ofString (s : String)
  | ofObj (fields : List (String × Jx))

/-- Message normalization: `typeof message === "string" ? \x7b message \x7d :
message`. -/
def normalize : LogMessage → List (String × Jx)
  | .ofString s => [("message", Jx.str s)]
  | .ofObj fields => fields

/-- Behaviour of one transport (`fetch`) invocation: the returned response is
ok, the response is not ok, or the fetch itself throws. -/
inductive SendResult
  | ok
  | httpError (status : Nat) (statusText : String)
  | netThrow (msg : String)

/-- One observable side effect of a log call. -/
inductive Event
  | consoleLog (s : String)
  | consoleError (s : String)
  | fetchCall (url : String) (method : String) (headers : Labels) (body : String)
  | hookCall (err : String) (msg : LokiMessage)
deriving DecidableEq

/-- The contextual-property labels (`cfLabels` in `generateLokiMessage`):
each field is added only when truthy, so an empty string or a zero ASN is
skipped, and `asn` is rendered in decimal. -/
def cfLabelsOf : Option CfProperties → Labels
  | none => []
  | some cf =>
    (if truthyStr cf.colo then [("cf_colo", cf.colo.getD "")] else []) ++
    (if truthyStr cf.country then [("cf_country", cf.country.getD "")] else []) ++
    (if truthyStr cf.city then [("cf_city", cf.city.getD "")] else []) ++
    (match cf.asn with
      | some n => if n ≠ 0 then [("cf_asn", natRep n)] else []
      | none => [])

/-- `generateLokiMessage` from the source: the stream labels are the object
literal `\x7b level, ...defaultLabels, ...cfLabels, ...labels \x7d`, the
timestamp is `Date.now()` (here `now`) with six appended zeros, and the line
is the JSON-serialized normalized message. -/
def generateLokiMessage (cfg : LokiConfig) (logLevel : String)
    (message : List (String × Jx)) (labels : Labels) (now : Nat) : LokiMessage :=
  { stream := objExtend (objExtend (objExtend [("level", logLevel)]
        cfg.defaultLabels) (cfLabelsOf cfg.cf)) labels
    ts := natRep now ++ "000000"
    line := stringifyObj message }

/-- Serialization of the push envelope, as `JSON.stringify` renders the
`LokiMessage` object. -/
def stringifyLokiMessage (m : LokiMessage) : String :=
  "\x7b\"streams\":[\x7b\"stream\":" ++ stringifyLabels m.stream ++
    ",\"values\":[[" ++ quoteStr m.ts ++ "," ++ quoteStr m.line ++ "]]\x7d]\x7d"

/-- The configuration check at the top of `sendToLoki`:
`!config.lokiHost || !config.lokiUser || !config.lokiToken`. -/
def configMissing (cfg : LokiConfig) : Bool :=
  !truthyStr cfg.lokiHost || !truthyStr cfg.lokiUser || !truthyStr cfg.lokiToken

/-- The error thrown by one transport attempt, if any: `fetch` rethrows its
own failure, and a non-ok response becomes
`Loki push failed: <status> <statusText>`. -/
def attemptErr : SendResult → Option String
  | .ok => none
  | .netThrow e => some e
  | .httpError st stx => some ("Loki push failed: " ++ natRep st ++ " " ++ stx)

/-- The POST request `sendToLoki` issues when the configuration is present. -/
def fetchEvent (cfg : LokiConfig) (m : LokiMessage) : Event :=
  .fetchCall ("https://" ++ (cfg.lokiHost.getD "") ++ "/loki/api/v1/push") "POST"
    [("Content-Type", "application/json"),
     ("Authorization", "Basic " ++
        btoa ((cfg.lokiUser.getD "") ++ ":" ++ (cfg.lokiToken.getD "")))]
    (stringifyLokiMessage m)

/-- `sendToLoki`: throw a configuration error before any network call when a
credential is missing, otherwise perform the POST and throw on a non-ok
response.  The second component is the thrown error, if any. -/
def sendToLoki (cfg : LokiConfig) (m : LokiMessage) (r : SendResult) :
    List Event × Option String :=
  if configMissing cfg then
    ([], some "Loki configuration missing (host, user, or token)")
  else
    ([fetchEvent cfg m], attemptErr r)

/-- The `for (let i = 0; i <= retries; i++)` loop of `sendWithRetry`: attempt
`i`, return on success, remember the caught error and continue while retries
remain.  `rem` is the number of attempts still allowed after this one; the
result's second component is the pending `lastError` after exhaustion, `none`
on success. -/
def retryLoop (cfg : LokiConfig) (m : LokiMessage) (transport : Nat → SendResult) :
    Nat → Nat → List Event × Option String
  | i, rem =>
    let a := sendToLoki cfg m (transport i)
    match a.2 with
    | none => (a.1, none)
    | some e =>
      match rem with
      | 0 => (a.1, some e)
      | rem' + 1 =>
        let b := retryLoop cfg m transport (i + 1) rem'
        (a.1 ++ b.1, b.2)

/-- The failure hook: the configured `onSendError` callback receives the last
error and the envelope; without a callback the error goes to
`console.error`. -/
def failureHook (cfg : LokiConfig) (e : String) (m : LokiMessage) : Event :=
  if cfg.onSendError then .hookCall e m else .consoleError e

/-- `sendWithRetry`: run the attempt loop with budget `config.retries || 0`;
if the loop ends with a pending error, route it to the failure hook.  The
second component is the error escaping `sendWithRetry` itself. -/
def sendWithRetry (cfg : LokiConfig) (m : LokiMessage)
    (transport : Nat → SendResult) : List Event × Option String :=
  let r := retryLoop cfg m transport 0 (cfg.retries.getD 0)
  match r.2 with
  | none => (r.1, none)
  | some e => (r.1 ++ [failureHook cfg e m], none)

/-- The encoder step of `log`: a configured custom formatter is trusted
verbatim, otherwise `generateLokiMessage` builds the envelope. -/
def encodeMessage (cfg : LokiConfig) (logLevel : LogLevel)
    (normalized : List (String × Jx)) (labels : Labels) (now : Nat) : LokiMessage :=
  match cfg.format with
  | some f => f logLevel normalized labels
  | none => generateLokiMessage cfg (levelName logLevel) normalized labels now

/-- The outcome of one `log` call: the events observed before the returned
promise resolves, the delivery task handed to `ctx.waitUntil` (capability
identity paired with the task's own events) if any, and the error rejecting
the call, if any. -/
structure LogOutcome where
  trace : List Event
  handed : Option (Nat × List Event)
  rejection : Option String
deriving DecidableEq

/-- `log` from the source: level filter, normalization, unconditional console
echo, silent cutoff, encoding, then delivery either handed to the effective
`ctx.waitUntil` (call-site `ctx` wins over `config.ctx`) or awaited. -/
def log (cfg : LokiConfig) (logLevel : LogLevel) (message : LogMessage)
    (labels : Labels) (ctx : Option Nat) (now : Nat)
    (transport : Nat → SendResult) : LogOutcome :=
  if levelPriority logLevel < levelPriority (cfg.minLevel.getD .debug) then
    { trace := [], handed := none, rejection := none }
  else
    let normalized := normalize message
    let echo := Event.consoleLog (stringifyObj normalized)
    if cfg.silent then
      { trace := [echo], handed := none, rejection := none }
    else
      let lokiMessage := encodeMessage cfg logLevel normalized labels now
      let delivery := sendWithRetry cfg lokiMessage transport
      match ctx <|> cfg.ctx with
      | some c => { trace := [echo], handed := some (c, delivery.1), rejection := none }
      | none => { trace := echo :: delivery.1, handed := none, rejection := delivery.2 }

/-- Public method `logger.debug`, a curried wrapper around `log`. -/
def lokiDebug (cfg : LokiConfig) (message : LogMessage) (labels : Labels)
    (ctx : Option Nat) (now : Nat) (transport : Nat → SendResult) : LogOutcome :=
  log cfg .debug message labels ctx now transport

/-- Public method `logger.info`, a curried wrapper around `log`. -/
def lokiInfo (cfg : LokiConfig) (message : LogMessage) (labels : Labels)
    (ctx : Option Nat) (now : Nat) (transport : Nat → SendResult) : LogOutcome :=
  log cfg .info message labels ctx now transport

/-- Public method `logger.warn`, a curried wrapper around `log`. -/
def lokiWarn (cfg : LokiConfig) (message : LogMessage) (labels : Labels)
    (ctx : Option Nat) (now : Nat) (transport : Nat → SendResult) : LogOutcome :=
  log cfg .warn message labels ctx now transport

/-- Public method `logger.error`, a curried wrapper around `log`. -/
def lokiError (cfg : LokiConfig) (message : LogMessage) (labels : Labels)
    (ctx : Option Nat) (now : Nat) (transport : Nat → SendResult) : LogOutcome :=
  log cfg .error message labels ctx now transport

/-- All events a log call ever produces: those observed before it returns
followed by those of the handed-off delivery task. -/
def allEvents (r : LogOutcome) : List Event :=
  r.trace ++ (r.handed.map Prod.snd).getD []

/-- Whether an event is a transport (`fetch`) invocation. -/
def isFetchEv : Event → Bool
  | .fetchCall _ _ _ _ => true
  | _ => false

/-- Whether an event is a failure-hook invocation (`onSendError` callback or
the `console.error` fallback). -/
def isHookEv : Event → Bool
  | .hookCall _ _ => true
  | .consoleError _ => true
  | _ => false

/-- Whether an event is a local diagnostic echo (`console.log`). -/
def isEchoEv : Event → Bool
  | .consoleLog _ => true
  | _ => false

/-- Number of transport invocations among the events. -/
def countFetch (l : List Event) : Nat :=
  (l.filter isFetchEv).length

/-- Number of failure-hook invocations among the events. -/
def countHook (l : List Event) : Nat :=
  (l.filter isHookEv).length

/-- Number of local diagnostic echoes among the events. -/
def countEcho (l : List Event) : Nat :=
  (l.filter isEchoEv).length

/-- Drop the leading segment `p` from `l`, or `none` when `l` does not start
with `p`. -/
def dropPre (p l : List Char) : Option (List Char) :=
  match p, l with
  | [], l => some l
  | _ :: _, [] => none
  | c :: ps, d :: ds => if d = c then dropPre ps ds else none

/-- The scheme strip `getEnv("LOKI_URL")?.replace` applies: an anchored
`https://` or `http://` at the start of the string is removed once. -/
def stripScheme (s : String) : String :=
  match dropPre "https://".data s.data with
  | some r => ⟨r⟩
  | none =>
    match dropPre "http://".data s.data with
    | some r => ⟨r⟩
    | none => s

/-- JS `a || b` on optional strings: `a` when truthy, otherwise `b`. -/
def jsOrStr (a b : Option String) : Option String :=
  if truthyStr a then a else b

/-- The `mergedConfig` computed by `getLokiLogger`: each credential falls back
through `||` to its environment variables (`env` is the ambient environment
lookup). -/
def mergedConfig (cfg : LokiConfig) (env : String → Option String) : LokiConfig :=
  { cfg with
    lokiHost := jsOrStr (jsOrStr cfg.lokiHost (env "LOKI_HOST"))
      ((env "LOKI_URL").map stripScheme)
    lokiToken := jsOrStr cfg.lokiToken (env "LOKI_TOKEN")
    lokiUser := jsOrStr cfg.lokiUser (env "LOKI_USER") }

/-- One emitted entry of the Function Wrapper: a level and the structured
message fields. -/
structure WrapEntry where
  level : LogLevel
  fields : List (String × Jx)

/-- Value of the field named `k` in a wrap entry's message. -/
def fieldVal (k : String) : List (String × Jx) → Option Jx
  | [] => none
  | (k', v) :: rest => if k = k' then some v else fieldVal k rest

/-- Modelled from the spec: the Function Wrapper `wrap(name, operation)` is
documented in the repository README and exercised by its tests, but its
implementation is not among the source files.  Per spec section 4.7 it records
the start and end instants around the wrapped operation; on success it emits
one info-level entry with `function_name` and `duration_ms` and re-returns the
result unchanged; on failure it emits one error-level entry that additionally
carries the failure message in `error`, then re-raises the failure unchanged.
The operation is `op` applied to `input`, failing with a message in
`Except.error`; `startTime` and `endTime` are the two clock readings. -/
def wrap {α β : Type} (name : String) (op : α → Except String β) (input : α)
    (startTime endTime : Nat) : List WrapEntry × Except String β :=
  match op input with
  | .ok v =>
    ([{ level := .info,
        fields := [("function_name", Jx.str name),
                   ("duration_ms", Jx.num ((endTime : Int) - (startTime : Int)))] }],
     .ok v)
  | .error e =>
    ([{ level := .error,
        fields := [("function_name", Jx.str name),
                   ("duration_ms", Jx.num ((endTime : Int) - (startTime : Int))),
                   ("error", Jx.str e)] }],
     .error e)

/-- Modelled from the spec: the request-derived label stage of the wire
encoder is absent from the shipped source (only the repository README and
tests mention it).  Per spec section 3 request-derived labels are merged after
the configuration-level labels and before the call-site labels; the stages
that do exist in the source (level, default labels, cf labels, call-site
labels) follow `generateLokiMessage` exactly, so with an empty request stage
this definition coincides with it. -/
def generateLokiMessageWithRequest (cfg : LokiConfig) (logLevel : String)
    (message : List (String × Jx)) (requestLabels : Labels) (labels : Labels)
    (now : Nat) : LokiMessage :=
  { stream := objExtend (objExtend (objExtend (objExtend [("level", logLevel)]
        cfg.defaultLabels) (cfLabelsOf cfg.cf)) requestLabels) labels
    ts := natRep now ++ "000000"
    line := stringifyObj message }

/-- The stream label set in the precedence order the specification words
claim: level label, then contextual-property (cf) labels, then configuration
default labels, then request-derived labels, then call-site labels, later
wins.  Stated only for comparison with the source's `generateLokiMessage`. -/
def specOrderStream (cfg : LokiConfig) (logLevel : String)
    (requestLabels : Labels) (labels : Labels) : Labels :=
  objExtend (objExtend (objExtend (objExtend [("level", logLevel)]
    (cfLabelsOf cfg.cf)) cfg.defaultLabels) requestLabels) labels

/-- A concrete configuration with full credentials, two retries and a
configured failure callback, used to evaluate the retry policy. -/
def cfgRetryW : LokiConfig :=
  { lokiHost := some "h", lokiUser := some "u", lokiToken := some "t",
    retries := some 2, onSendError := true }

/-- A concrete envelope used to evaluate the delivery engine. -/
def msgW : LokiMessage :=
  { stream := [("level", "info")], ts := "1000000", line := "\x7b\x7d" }

/-- A transport that fails every attempt with a 500 response. -/
def transportFail : Nat → SendResult :=
  fun _ => .httpError 500 "Fatal"

/-- A transport whose first attempt throws and whose later attempts succeed. -/
def transportSecondOk : Nat → SendResult :=
  fun i => if i = 0 then .netThrow "boom" else .ok

/-- A concrete configuration with credentials and minimum level warn. -/
def cfgMinWarn : LokiConfig :=
  { lokiHost := some "h", lokiUser := some "u", lokiToken := some "t",
    minLevel := some .warn }

/-- A concrete configuration with credentials and a default deferred-execution
capability, identified as capability 1. -/
def cfgCtx1 : LokiConfig :=
  { lokiHost := some "h", lokiUser := some "u", lokiToken := some "t",
    ctx := some 1 }

/-- Whether a character is a decimal digit. -/
def isDigitCh (c : Char) : Bool :=
  decide (48 ≤ c.toNat) && decide (c.toNat ≤ 57)

/-- A configuration holding a default label whose key collides with a
contextual-property label key. -/
def cfgC1x : LokiConfig :=
  { defaultLabels := [("cf_colo", "X")], cf := some { colo := some "Y" } }

/-- The end-to-end configuration of the spec's ninth testable property. -/
def cfgC9 : LokiConfig :=
  { lokiHost := some "h", lokiUser := some "u", lokiToken := some "t" }

/-- A concrete succeeding operation for the Function Wrapper. -/
def opOkW : Nat → Except String Nat :=
  fun n => .ok (n + 1)

/-- A concrete failing operation for the Function Wrapper. -/
def opFailW : Nat → Except String Nat :=
  fun _ => .error "fail"

/-- A configuration whose host is explicitly supplied as the empty string. -/
def cfgEmptyHost : LokiConfig :=
  { lokiHost := some "" }

/-- An environment defining only LOKI_HOST. -/
def envHostOnly : String → Option String :=
  fun n => if n = "LOKI_HOST" then some "envhost" else none

theorem lookup_map_replace (o : Labels) (k v k' : String)
    (hmem : k' = k → keyMem k o = true) :
    lookupKey k' (o.map (fun p => if p.1 == k then (p.1, v) else p)) =
      if k' = k then some v else lookupKey k' o := by
  induction o with
  | nil =>
    by_cases h : k' = k
    · exact absurd (hmem h) (by simp [keyMem])
    · simp [lookupKey, h]
  | cons hd tl ih =>
    rcases hd with ⟨hk, hv⟩
    simp only [List.map_cons]
    by_cases hhd : hk = k
    · subst hhd
      have e1 : (if ((hk, hv).1 == hk) = true then ((hk, hv).1, v) else (hk, hv))
          = (hk, v) := by simp
      rw [e1]
      by_cases h : k' = hk
      · simp [lookupKey, h]
      · simp only [lookupKey, if_neg h]
        rw [ih (fun hh => absurd hh h)]
        simp [h]
    · have e1 : (if ((hk, hv).1 == k) = true then ((hk, hv).1, v) else (hk, hv))
          = (hk, hv) := by simp [hhd]
      rw [e1]
      have hmem' : k' = k → keyMem k tl = true := by
        intro hh
        have h2 := hmem hh
        simp only [keyMem, List.any_cons, Bool.or_eq_true] at h2
        rcases h2 with h1 | h1
        · exact absurd (by simpa using h1) hhd
        · simpa [keyMem] using h1
      by_cases hk'hd : k' = hk
      · subst hk'hd
        simp [lookupKey, hhd]
      · simp only [lookupKey, if_neg hk'hd]
        exact ih hmem'

theorem lookup_append_single (o : Labels) (k v k' : String)
    (hmem : keyMem k o = false) :
    lookupKey k' (o ++ [(k, v)]) =
      if k' = k then some v else lookupKey k' o := by
  induction o with
  | nil => simp [lookupKey]
  | cons hd tl ih =>
    rcases hd with ⟨hk, hv⟩
    have hparts : ¬hk = k ∧ keyMem k tl = false := by
      simp only [keyMem, List.any_cons, Bool.or_eq_false_iff] at hmem
      exact ⟨by simpa using hmem.1, by simpa [keyMem] using hmem.2⟩
    simp only [List.cons_append, lookupKey]
    by_cases hk'hd : k' = hk
    · subst hk'hd
      simp [hparts.1]
    · simp only [if_neg hk'hd]
      exact ih hparts.2

theorem lookup_objInsert (o : Labels) (k v k' : String) :
    lookupKey k' (objInsert o (k, v)) =
      if k' = k then some v else lookupKey k' o := by
  unfold objInsert
  by_cases hmem : keyMem k o
  · simp only [hmem, if_true]
    exact lookup_map_replace o k v k' (fun _ => hmem)
  · simp only [hmem, Bool.false_eq_true, if_false]
    exact lookup_append_single o k v k' (by simpa using hmem)

theorem lookup_objExtend (o : Labels) (l : Labels) (k : String) :
    lookupKey k (objExtend o l) = (lastVal l k).orElse (fun _ => lookupKey k o) := by
  induction l generalizing o with
  | nil => simp [objExtend, lastVal, lookupKey]
  | cons kv l ih =>
    have step : objExtend o (kv :: l) = objExtend (objInsert o kv) l := rfl
    rw [step, ih]
    unfold lastVal
    simp only [List.reverse_cons]
    rcases kv with ⟨kk, vv⟩
    rw [lookup_objInsert]
    have happ : lookupKey k (l.reverse ++ [(kk, vv)]) =
        (lookupKey k l.reverse).orElse (fun _ => lookupKey k [(kk, vv)]) := by
      induction l.reverse with
      | nil => simp [lookupKey]
      | cons hd tl ih2 =>
        rcases hd with ⟨h1, h2⟩
        simp only [List.cons_append, lookupKey]
        by_cases hh : k = h1
        · simp [hh]
        · simp only [if_neg hh]
          exact ih2
    rw [happ]
    cases hlk : lookupKey k l.reverse with
    | some v2 => rfl
    | none =>
      show (if k = kk then some vv else lookupKey k o) =
        (lookupKey k [(kk, vv)]).orElse (fun _ => lookupKey k o)
      by_cases hk : k = kk
      · subst hk
        simp [lookupKey]
      · simp [lookupKey, hk]

theorem sendWithRetry_noThrow (cfg : LokiConfig) (m : LokiMessage)
    (transport : Nat → SendResult) : (sendWithRetry cfg m transport).2 = none := by
  unfold sendWithRetry
  cases h : (retryLoop cfg m transport 0 (cfg.retries.getD 0)).2 <;> simp [h]

theorem retryLoop_configMissing (cfg : LokiConfig) (m : LokiMessage)
    (transport : Nat → SendResult) (h : configMissing cfg = true) :
    ∀ rem i, retryLoop cfg m transport i rem =
      ([], some "Loki configuration missing (host, user, or token)") := by
  intro rem
  induction rem with
  | zero => intro i; simp [retryLoop, sendToLoki, h]
  | succ n ih => intro i; simp [retryLoop, sendToLoki, h, ih]

theorem retryLoop_allFail (cfg : LokiConfig) (m : LokiMessage)
    (transport : Nat → SendResult) (h : configMissing cfg = false)
    (hf : ∀ j, attemptErr (transport j) ≠ none) :
    ∀ rem i, retryLoop cfg m transport i rem =
      (List.replicate (rem + 1) (fetchEvent cfg m), attemptErr (transport (i + rem))) := by
  intro rem
  induction rem with
  | zero =>
    intro i
    cases he : attemptErr (transport i) with
    | none => exact absurd he (hf i)
    | some e => simp [retryLoop, sendToLoki, h, he]
  | succ n ih =>
    intro i
    cases he : attemptErr (transport i) with
    | none => exact absurd he (hf i)
    | some e =>
      have harith : i + 1 + n = i + (n + 1) := by omega
      have hb := ih (i + 1)
      rw [retryLoop]
      simp [sendToLoki, h, he, hb, harith, List.replicate_succ]

theorem retryLoop_firstOk (cfg : LokiConfig) (m : LokiMessage)
    (transport : Nat → SendResult) (h : configMissing cfg = false) :
    ∀ m0 rem i, (∀ j, j < m0 → attemptErr (transport (i + j)) ≠ none) →
      attemptErr (transport (i + m0)) = none → m0 ≤ rem →
      retryLoop cfg m transport i rem =
        (List.replicate (m0 + 1) (fetchEvent cfg m), none) := by
  intro m0
  induction m0 with
  | zero =>
    intro rem i _ hok _
    simp only [Nat.add_zero] at hok
    simp [retryLoop, sendToLoki, h, hok]
  | succ n ih =>
    intro rem i hfail hok hm
    cases he : attemptErr (transport i) with
    | none =>
      exact absurd (by simpa using he) (hfail 0 (by omega))
    | some e =>
      cases rem with
      | zero => omega
      | succ rem' =>
        have hshift : ∀ j, j < n → attemptErr (transport (i + 1 + j)) ≠ none := by
          intro j hj
          have := hfail (j + 1) (by omega)
          simpa [Nat.add_assoc, Nat.add_comm 1 j] using this
        have hok' : attemptErr (transport (i + 1 + n)) = none := by
          have harith : i + 1 + n = i + (n + 1) := by omega
          rw [harith]; exact hok
        have hb := ih rem' (i + 1) hshift hok' (by omega)
        rw [retryLoop]
        simp [sendToLoki, h, he, hb, List.replicate_succ]

theorem retryLoop_events (cfg : LokiConfig) (m : LokiMessage)
    (transport : Nat → SendResult) :
    ∀ rem i e, e ∈ (retryLoop cfg m transport i rem).1 → e = fetchEvent cfg m := by
  intro rem
  induction rem with
  | zero =>
    intro i e he
    cases hcm : configMissing cfg with
    | true => simp [retryLoop, sendToLoki, hcm] at he
    | false =>
      cases ha : attemptErr (transport i) with
      | none => simp [retryLoop, sendToLoki, hcm, ha] at he; exact he
      | some err => simp [retryLoop, sendToLoki, hcm, ha] at he; exact he
  | succ n ih =>
    intro i e he
    rw [retryLoop] at he
    cases hcm : configMissing cfg with
    | true =>
      simp [sendToLoki, hcm] at he
      exact ih (i + 1) e he
    | false =>
      cases ha : attemptErr (transport i) with
      | none => simp [sendToLoki, hcm, ha] at he; exact he
      | some err =>
        simp [sendToLoki, hcm, ha] at he
        rcases he with he | he
        · exact he
        · exact ih (i + 1) e he

theorem isFetchEv_failureHook (cfg : LokiConfig) (e : String) (m : LokiMessage) :
    isFetchEv (failureHook cfg e m) = false := by
  unfold failureHook
  split <;> rfl

theorem isHookEv_failureHook (cfg : LokiConfig) (e : String) (m : LokiMessage) :
    isHookEv (failureHook cfg e m) = true := by
  unfold failureHook
  split <;> rfl

theorem countFetch_append (a b : List Event) :
    countFetch (a ++ b) = countFetch a + countFetch b := by
  simp [countFetch, List.filter_append]

theorem countHook_append (a b : List Event) :
    countHook (a ++ b) = countHook a + countHook b := by
  simp [countHook, List.filter_append]

theorem countFetch_replicate_fetch (n : Nat) (cfg : LokiConfig) (m : LokiMessage) :
    countFetch (List.replicate n (fetchEvent cfg m)) = n := by
  induction n with
  | zero => rfl
  | succ k ih =>
    rw [List.replicate_succ]
    have : countFetch (fetchEvent cfg m :: List.replicate k (fetchEvent cfg m)) =
        countFetch ([fetchEvent cfg m] ++ List.replicate k (fetchEvent cfg m)) := rfl
    rw [this, countFetch_append, ih]
    have h1 : countFetch [fetchEvent cfg m] = 1 := rfl
    omega

theorem countHook_replicate_fetch (n : Nat) (cfg : LokiConfig) (m : LokiMessage) :
    countHook (List.replicate n (fetchEvent cfg m)) = 0 := by
  induction n with
  | zero => rfl
  | succ k ih =>
    rw [List.replicate_succ]
    have : countHook (fetchEvent cfg m :: List.replicate k (fetchEvent cfg m)) =
        countHook ([fetchEvent cfg m] ++ List.replicate k (fetchEvent cfg m)) := rfl
    rw [this, countHook_append, ih]
    have h1 : countHook [fetchEvent cfg m] = 0 := rfl
    omega

theorem countFetch_hook_single (cfg : LokiConfig) (e : String) (m : LokiMessage) :
    countFetch [failureHook cfg e m] = 0 := by
  simp [countFetch, List.filter, isFetchEv_failureHook]

theorem countHook_hook_single (cfg : LokiConfig) (e : String) (m : LokiMessage) :
    countHook [failureHook cfg e m] = 1 := by
  simp [countHook, List.filter, isHookEv_failureHook]

theorem sendWithRetry_allFail (cfg : LokiConfig) (m : LokiMessage)
    (transport : Nat → SendResult) (h : configMissing cfg = false)
    (hf : ∀ j, attemptErr (transport j) ≠ none) (e : String)
    (he : attemptErr (transport (cfg.retries.getD 0)) = some e) :
    sendWithRetry cfg m transport =
      (List.replicate (cfg.retries.getD 0 + 1) (fetchEvent cfg m) ++
        [failureHook cfg e m], none) := by
  have hloop := retryLoop_allFail cfg m transport h hf (cfg.retries.getD 0) 0
  rw [Nat.zero_add] at hloop
  unfold sendWithRetry
  rw [hloop]
  simp [he]

theorem sendWithRetry_firstOk (cfg : LokiConfig) (m : LokiMessage)
    (transport : Nat → SendResult) (h : configMissing cfg = false) (m0 : Nat)
    (hfail : ∀ j, j < m0 → attemptErr (transport j) ≠ none)
    (hok : attemptErr (transport m0) = none) (hm : m0 ≤ cfg.retries.getD 0) :
    sendWithRetry cfg m transport =
      (List.replicate (m0 + 1) (fetchEvent cfg m), none) := by
  have hloop := retryLoop_firstOk cfg m transport h m0 (cfg.retries.getD 0) 0
    (by intro j hj; simpa using hfail j hj) (by simpa using hok) hm
  unfold sendWithRetry
  rw [hloop]

theorem sendWithRetry_configMissing (cfg : LokiConfig) (m : LokiMessage)
    (transport : Nat → SendResult) (h : configMissing cfg = true) :
    sendWithRetry cfg m transport =
      ([failureHook cfg "Loki configuration missing (host, user, or token)" m],
        none) := by
  have hloop := retryLoop_configMissing cfg m transport h (cfg.retries.getD 0) 0
  unfold sendWithRetry
  rw [hloop]
  simp

theorem log_rejection_none (cfg : LokiConfig) (logLevel : LogLevel)
    (message : LogMessage) (labels : Labels) (ctx : Option Nat) (now : Nat)
    (transport : Nat → SendResult) :
    (log cfg logLevel message labels ctx now transport).rejection = none := by
  unfold log
  split
  · rfl
  · split
    · rfl
    · cases hctx : ctx <|> cfg.ctx with
      | some c => simp [hctx]
      | none => simp [hctx, sendWithRetry_noThrow]

theorem log_eq_of_accepted (cfg : LokiConfig) (logLevel : LogLevel)
    (message : LogMessage) (labels : Labels) (ctx : Option Nat) (now : Nat)
    (transport : Nat → SendResult)
    (h : ¬levelPriority logLevel < levelPriority (cfg.minLevel.getD .debug))
    (hs : cfg.silent = false) :
    log cfg logLevel message labels ctx now transport =
      match ctx <|> cfg.ctx with
      | some c =>
        { trace := [.consoleLog (stringifyObj (normalize message))],
          handed := some (c, (sendWithRetry cfg
            (encodeMessage cfg logLevel (normalize message) labels now) transport).1),
          rejection := none }
      | none =>
        { trace := .consoleLog (stringifyObj (normalize message)) ::
            (sendWithRetry cfg
              (encodeMessage cfg logLevel (normalize message) labels now) transport).1,
          handed := none,
          rejection := (sendWithRetry cfg
            (encodeMessage cfg logLevel (normalize message) labels now) transport).2 } := by
  unfold log
  rw [if_neg h, if_neg (by simp [hs])]

theorem countEcho_append (a b : List Event) :
    countEcho (a ++ b) = countEcho a + countEcho b := by
  simp [countEcho, List.filter_append]

theorem countEcho_eq_zero (l : List Event) (h : ∀ e ∈ l, isEchoEv e = false) :
    countEcho l = 0 := by
  induction l with
  | nil => rfl
  | cons hd tl ih =>
    have h1 : isEchoEv hd = false := h hd (by simp)
    have h2 := ih (fun e he => h e (by simp [he]))
    simp only [countEcho, List.filter_cons, h1] at h2 ⊢
    simpa [countEcho] using h2

theorem sendWithRetry_events_no_echo (cfg : LokiConfig) (m : LokiMessage)
    (transport : Nat → SendResult) :
    ∀ e ∈ (sendWithRetry cfg m transport).1, isEchoEv e = false := by
  intro e he
  unfold sendWithRetry at he
  cases hr : (retryLoop cfg m transport 0 (cfg.retries.getD 0)).2 with
  | none =>
    simp only [hr] at he
    rw [retryLoop_events cfg m transport _ _ e he]
    rfl
  | some err =>
    simp only [hr, List.mem_append] at he
    rcases he with he | he
    · rw [retryLoop_events cfg m transport _ _ e he]
      rfl
    · simp only [List.mem_singleton] at he
      subst he
      unfold failureHook
      split <;> rfl

/-- Claim C2: for every configuration, message and transport behaviour, a
public log call (debug, info, warn or error) resolves without rejecting —
configuration and transport failures are absorbed inside `sendWithRetry` and
never reach the caller. -/
theorem log_call_never_rejects (cfg : LokiConfig) (message : LogMessage)
    (labels : Labels) (ctx : Option Nat) (now : Nat)
    (transport : Nat → SendResult) :
    (lokiDebug cfg message labels ctx now transport).rejection = none ∧
    (lokiInfo cfg message labels ctx now transport).rejection = none ∧
    (lokiWarn cfg message labels ctx now transport).rejection = none ∧
    (lokiError cfg message labels ctx now transport).rejection = none :=
  ⟨log_rejection_none cfg .debug message labels ctx now transport,
   log_rejection_none cfg .info message labels ctx now transport,
   log_rejection_none cfg .warn message labels ctx now transport,
   log_rejection_none cfg .error message labels ctx now transport⟩

/-- Claim C3: with retry budget N, when every transport attempt fails the
delivery engine performs exactly N+1 transport invocations and then invokes
the failure hook exactly once, with the last attempt's error and the
envelope; when the first success is attempt k (1-based, k ≤ N+1) it
performs exactly k transport invocations and never invokes the hook. -/
theorem retry_attempt_counts (cfg : LokiConfig) (m : LokiMessage)
    (transport : Nat → SendResult) (N : Nat)
    (hN : cfg.retries.getD 0 = N) (hc : configMissing cfg = false) :
    ((∀ i, attemptErr (transport i) ≠ none) →
      countFetch (sendWithRetry cfg m transport).1 = N + 1 ∧
      countHook (sendWithRetry cfg m transport).1 = 1 ∧
      (∃ e, attemptErr (transport N) = some e ∧
        (sendWithRetry cfg m transport).1.getLast? =
          some (failureHook cfg e m))) ∧
    (∀ k, 1 ≤ k → k ≤ N + 1 →
      (∀ j, j + 1 < k → attemptErr (transport j) ≠ none) →
      attemptErr (transport (k - 1)) = none →
      countFetch (sendWithRetry cfg m transport).1 = k ∧
      countHook (sendWithRetry cfg m transport).1 = 0) := by
  subst hN
  constructor
  · intro hf
    obtain ⟨e, he⟩ : ∃ e, attemptErr (transport (cfg.retries.getD 0)) = some e := by
      cases h : attemptErr (transport (cfg.retries.getD 0)) with
      | none => exact absurd h (hf _)
      | some e => exact ⟨e, rfl⟩
    rw [sendWithRetry_allFail cfg m transport hc hf e he]
    refine ⟨?_, ?_, e, he, ?_⟩
    · rw [countFetch_append, countFetch_replicate_fetch, countFetch_hook_single]
    · rw [countHook_append, countHook_replicate_fetch, countHook_hook_single]
    · exact List.getLast?_concat _
  · intro k hk1 hk2 hfail hok
    have hrw := sendWithRetry_firstOk cfg m transport hc (k - 1)
      (fun j hj => hfail j (by omega)) hok (by omega)
    rw [hrw]
    constructor
    · rw [countFetch_replicate_fetch]; omega
    · rw [countHook_replicate_fetch]

/-- Witness for C3: a concrete configuration with two retries.  With a
transport failing every attempt there are three POSTs and one hook call; with
a transport first succeeding on attempt 2 there are two POSTs and no hook. -/
theorem retry_attempt_counts_witness :
    (cfgRetryW.retries.getD 0 = 2 ∧
      configMissing cfgRetryW = false ∧
      (countFetch (sendWithRetry cfgRetryW msgW transportFail).1 = 3 ∧
       countHook (sendWithRetry cfgRetryW msgW transportFail).1 = 1)) ∧
    (countFetch (sendWithRetry cfgRetryW msgW transportSecondOk).1 = 2 ∧
      countHook (sendWithRetry cfgRetryW msgW transportSecondOk).1 = 0) := by
  constructor
  · refine ⟨rfl, rfl, ?_⟩
    have h := (retry_attempt_counts cfgRetryW msgW transportFail 2 rfl rfl).1
      (fun _ => by simp [transportFail, attemptErr])
    exact ⟨h.1, h.2.1⟩
  · exact (retry_attempt_counts cfgRetryW msgW transportSecondOk 2 rfl rfl).2
      2 (by omega) (by omega)
      (fun j hj => by
        have hj0 : j = 0 := by omega
        subst hj0
        simp [transportSecondOk, attemptErr])
      (by simp [transportSecondOk, attemptErr])

/-- Claim C5: when host, user or token is empty or absent at delivery time,
every delivery attempt fails before any network call — the transport is never
invoked — and the configuration error flows through the same retry-and-hook
path, reaching the failure hook exactly once and never rejecting the log
call. -/
theorem missing_config_fail_fast (cfg : LokiConfig) (m : LokiMessage)
    (transport : Nat → SendResult) (h : configMissing cfg = true) :
    countFetch (sendWithRetry cfg m transport).1 = 0 ∧
    (sendWithRetry cfg m transport).1 =
      [failureHook cfg "Loki configuration missing (host, user, or token)" m] ∧
    countHook (sendWithRetry cfg m transport).1 = 1 ∧
    (∀ logLevel message labels ctx now,
      (log cfg logLevel message labels ctx now transport).rejection = none) := by
  have hs := sendWithRetry_configMissing cfg m transport h
  rw [hs]
  exact ⟨countFetch_hook_single cfg _ m, rfl, countHook_hook_single cfg _ m,
    fun logLevel message labels ctx now =>
      log_rejection_none cfg logLevel message labels ctx now transport⟩

/-- Witness for C5: the empty configuration is missing its credentials; no
transport call happens and the console fallback hook fires once. -/
theorem missing_config_fail_fast_witness :
    configMissing {} = true ∧
    (countFetch (sendWithRetry {} msgW (fun _ => .ok)).1 = 0 ∧
      (sendWithRetry {} msgW (fun _ => .ok)).1 =
        [failureHook {} "Loki configuration missing (host, user, or token)" msgW] ∧
      countHook (sendWithRetry {} msgW (fun _ => .ok)).1 = 1 ∧
      (∀ logLevel message labels ctx now,
        (log {} logLevel message labels ctx now (fun _ => .ok)).rejection = none)) :=
  ⟨rfl, missing_config_fail_fast {} msgW (fun _ => .ok) rfl⟩

/-- Claim C6: every accepted (level-passing) log call writes the
JSON-serialized normalized message to `console.log` exactly once, as the
first of all its events — hence before any delivery attempt — independent of
the `silent` flag, and in silent mode that echo is the call's only
observable effect. -/
theorem echo_exactly_once (cfg : LokiConfig) (logLevel : LogLevel)
    (message : LogMessage) (labels : Labels) (ctx : Option Nat) (now : Nat)
    (transport : Nat → SendResult)
    (h : levelPriority (cfg.minLevel.getD .debug) ≤ levelPriority logLevel) :
    countEcho (allEvents (log cfg logLevel message labels ctx now transport)) = 1 ∧
    (allEvents (log cfg logLevel message labels ctx now transport)).head? =
      some (.consoleLog (stringifyObj (normalize message))) ∧
    (cfg.silent = true →
      log cfg logLevel message labels ctx now transport =
        { trace := [.consoleLog (stringifyObj (normalize message))],
          handed := none, rejection := none }) := by
  have hlt : ¬levelPriority logLevel < levelPriority (cfg.minLevel.getD .debug) := by
    omega
  cases hs : cfg.silent with
  | true =>
    have hlog : log cfg logLevel message labels ctx now transport =
        { trace := [.consoleLog (stringifyObj (normalize message))],
          handed := none, rejection := none } := by
      unfold log
      rw [if_neg hlt, if_pos hs]
    rw [hlog]
    exact ⟨rfl, rfl, fun _ => rfl⟩
  | false =>
    rw [log_eq_of_accepted cfg logLevel message labels ctx now transport hlt hs]
    have hzero := countEcho_eq_zero _
      (sendWithRetry_events_no_echo cfg
        (encodeMessage cfg logLevel (normalize message) labels now) transport)
    cases hctx : ctx <|> cfg.ctx with
    | some c =>
      refine ⟨?_, rfl, fun hcon => by simp [hs] at hcon⟩
      have hct : countEcho ([Event.consoleLog (stringifyObj (normalize message))] ++
          (sendWithRetry cfg
            (encodeMessage cfg logLevel (normalize message) labels now) transport).1) =
          1 := by
        rw [countEcho_append, hzero]
        rfl
      simpa [allEvents] using hct
    | none =>
      refine ⟨?_, rfl, fun hcon => by simp [hs] at hcon⟩
      have hct : countEcho ([Event.consoleLog (stringifyObj (normalize message))] ++
          (sendWithRetry cfg
            (encodeMessage cfg logLevel (normalize message) labels now) transport).1) =
          1 := by
        rw [countEcho_append, hzero]
        rfl
      simpa [allEvents] using hct

/-- Witness for C6: a silent configuration with an accepted info call echoes
once and does nothing else. -/
theorem echo_exactly_once_witness :
    levelPriority (({ silent := true } : LokiConfig).minLevel.getD .debug) ≤
      levelPriority .info ∧
    (countEcho (allEvents (log { silent := true } .info (.ofString "hello") []
        none 0 (fun _ => .ok))) = 1 ∧
      (allEvents (log { silent := true } .info (.ofString "hello") [] none 0
        (fun _ => .ok))).head? =
        some (.consoleLog (stringifyObj (normalize (.ofString "hello")))) ∧
      (({ silent := true } : LokiConfig).silent = true →
        log { silent := true } .info (.ofString "hello") [] none 0 (fun _ => .ok) =
          { trace := [.consoleLog (stringifyObj (normalize (.ofString "hello")))],
            handed := none, rejection := none })) :=
  ⟨by decide,
   echo_exactly_once { silent := true } .info (.ofString "hello") [] none 0
     (fun _ => .ok) (by decide)⟩

/-- Claim C7: a log call whose level is strictly below the configured minimum
does nothing at all — in particular it performs no transport call. -/
theorem below_min_no_transport (cfg : LokiConfig) (logLevel : LogLevel)
    (message : LogMessage) (labels : Labels) (ctx : Option Nat) (now : Nat)
    (transport : Nat → SendResult)
    (h : levelPriority logLevel < levelPriority (cfg.minLevel.getD .debug)) :
    log cfg logLevel message labels ctx now transport =
      { trace := [], handed := none, rejection := none } ∧
    countFetch (allEvents (log cfg logLevel message labels ctx now transport)) = 0 := by
  have hlog : log cfg logLevel message labels ctx now transport =
      { trace := [], handed := none, rejection := none } := by
    unfold log
    rw [if_pos h]
  exact ⟨hlog, by rw [hlog]; rfl⟩

/-- Witness for C7: with minimum level warn, a debug call makes no transport
call even though credentials are present and the transport would succeed. -/
theorem below_min_no_transport_witness :
    levelPriority .debug < levelPriority (cfgMinWarn.minLevel.getD .debug) ∧
    (log cfgMinWarn .debug (.ofString "x") [] none 0 (fun _ => .ok) =
      { trace := [], handed := none, rejection := none } ∧
    countFetch (allEvents (log cfgMinWarn .debug (.ofString "x") [] none 0
      (fun _ => .ok))) = 0) :=
  ⟨by decide,
   below_min_no_transport cfgMinWarn .debug (.ofString "x") [] none 0
     (fun _ => .ok) (by decide)⟩

/-- Claim C8: a call-site deferred-execution capability overrides the
configuration default for that call; when an effective capability exists the
delivery task is handed to its `waitUntil` and the call returns after only
the echo, without awaiting delivery; when none exists the call awaits
delivery, observing its events before returning. -/
theorem dispatch_scheduling (cfg : LokiConfig) (logLevel : LogLevel)
    (message : LogMessage) (labels : Labels) (ctx : Option Nat) (now : Nat)
    (transport : Nat → SendResult)
    (haccept : levelPriority (cfg.minLevel.getD .debug) ≤ levelPriority logLevel)
    (hsilent : cfg.silent = false) :
    (∀ c, ctx = some c →
      log cfg logLevel message labels ctx now transport =
        { trace := [.consoleLog (stringifyObj (normalize message))],
          handed := some (c, (sendWithRetry cfg
            (encodeMessage cfg logLevel (normalize message) labels now) transport).1),
          rejection := none }) ∧
    (ctx = none → ∀ c, cfg.ctx = some c →
      log cfg logLevel message labels ctx now transport =
        { trace := [.consoleLog (stringifyObj (normalize message))],
          handed := some (c, (sendWithRetry cfg
            (encodeMessage cfg logLevel (normalize message) labels now) transport).1),
          rejection := none }) ∧
    (ctx = none → cfg.ctx = none →
      log cfg logLevel message labels ctx now transport =
        { trace := .consoleLog (stringifyObj (normalize message)) ::
            (sendWithRetry cfg
              (encodeMessage cfg logLevel (normalize message) labels now) transport).1,
          handed := none, rejection := none }) := by
  have hlt : ¬levelPriority logLevel < levelPriority (cfg.minLevel.getD .debug) := by
    omega
  refine ⟨?_, ?_, ?_⟩
  · intro c hc
    rw [log_eq_of_accepted cfg logLevel message labels ctx now transport hlt hsilent]
    rw [hc]
    rfl
  · intro h0 c hc
    rw [log_eq_of_accepted cfg logLevel message labels ctx now transport hlt hsilent]
    rw [h0, hc]
    rfl
  · intro h0 h1
    rw [log_eq_of_accepted cfg logLevel message labels ctx now transport hlt hsilent]
    rw [h0, h1]
    simp [sendWithRetry_noThrow]

/-- Witness for C8: with capability 1 configured as default and capability 2
supplied at the call, the task is handed to capability 2 and the trace holds
only the echo. -/
theorem dispatch_scheduling_witness :
    levelPriority (cfgCtx1.minLevel.getD .debug) ≤ levelPriority .info ∧
    cfgCtx1.silent = false ∧
    log cfgCtx1 .info (.ofString "t") [] (some 2) 0 (fun _ => .ok) =
      { trace := [.consoleLog (stringifyObj (normalize (.ofString "t")))],
        handed := some (2, (sendWithRetry cfgCtx1
          (encodeMessage cfgCtx1 .info (normalize (.ofString "t")) [] 0)
          (fun _ => .ok)).1),
        rejection := none } :=
  ⟨by decide, rfl,
   (dispatch_scheduling cfgCtx1 .info (.ofString "t") [] (some 2) 0
     (fun _ => .ok) (by decide) rfl).1 2 rfl⟩

theorem strAppendAssoc (a b c : String) : a ++ b ++ c = a ++ (b ++ c) := by
  apply String.ext
  simp [String.data_append, List.append_assoc]

theorem isDigitCh_digCh (d : Nat) : isDigitCh (digCh d) = true := by
  unfold digCh
  split_ifs <;> decide

theorem escChar_digit (c : Char) (h : isDigitCh c = true) : escChar c = [c] := by
  have h1 : 48 ≤ c.toNat ∧ c.toNat ≤ 57 := by
    simpa [isDigitCh, Bool.and_eq_true, decide_eq_true_eq] using h
  have hq : ¬(c = '"') := fun hc => by subst hc; revert h1; decide
  have hbs : ¬(c = '\\') := fun hc => by subst hc; revert h1; decide
  have hn : ¬(c = '\n') := fun hc => by subst hc; revert h1; decide
  have hr : ¬(c = '\r') := fun hc => by subst hc; revert h1; decide
  have ht : ¬(c = '\t') := fun hc => by subst hc; revert h1; decide
  have h8 : ¬(c.toNat = 8) := by omega
  have h12 : ¬(c.toNat = 12) := by omega
  have h32 : ¬(c.toNat < 32) := by omega
  unfold escChar
  rw [if_neg hq, if_neg hbs, if_neg hn, if_neg hr, if_neg ht, if_neg h8,
    if_neg h12, if_neg h32]

theorem escList_all_digits (l : List Char)
    (h : ∀ c ∈ l, isDigitCh c = true) : escList l = l := by
  induction l with
  | nil => rfl
  | cons c cs ih =>
    have htail := ih (fun x hx => h x (by simp [hx]))
    simp only [escList, List.map_cons, List.flatten_cons] at htail ⊢
    rw [escChar_digit c (h c (by simp)), htail]
    rfl

theorem natRepAux_digits (n : Nat) : ∀ acc, (∀ c ∈ acc, isDigitCh c = true) →
    ∀ c ∈ natRepAux n acc, isDigitCh c = true := by
  induction n using Nat.strong_induction_on with
  | _ n ih =>
    intro acc hacc c hc
    rw [natRepAux] at hc
    split at hc
    · rcases List.mem_cons.mp hc with h1 | h1
      · subst h1; exact isDigitCh_digCh _
      · exact hacc c h1
    · rename_i h10
      refine ih (n / 10) (Nat.div_lt_self (by omega) (by omega))
        (digCh (n % 10) :: acc) ?_ c hc
      intro x hx
      rcases List.mem_cons.mp hx with h1 | h1
      · subst h1; exact isDigitCh_digCh _
      · exact hacc x h1

theorem natRep_digits (n : Nat) : ∀ c ∈ (natRep n).data, isDigitCh c = true :=
  natRepAux_digits n [] (by simp)

theorem escapeString_eq_of_digits (s : String)
    (h : ∀ c ∈ s.data, isDigitCh c = true) : escapeString s = s := by
  unfold escapeString
  rw [escList_all_digits s.data h]

theorem escapeString_natRep_pad (n : Nat) :
    escapeString (natRep n ++ "000000") = natRep n ++ "000000" := by
  apply escapeString_eq_of_digits
  intro c hc
  rw [String.data_append] at hc
  rcases List.mem_append.mp hc with h1 | h1
  · exact natRep_digits n c h1
  · have hc0 : c = '0' := by simpa using h1
    subst hc0
    decide

/-- Claim C4 (spec-modelled): the Function Wrapper returns a callable with
the operation's own contract — it re-returns the result or re-raises the
failure unchanged — and emits exactly one entry: on success an info-level
entry with `function_name` and a non-negative `duration_ms`, on failure an
error-level entry whose `error` field is the failure's message. -/
theorem wrap_contract {α β : Type} (name : String) (op : α → Except String β)
    (input : α) (startTime endTime : Nat) (h : startTime ≤ endTime) :
    (wrap name op input startTime endTime).2 = op input ∧
    (wrap name op input startTime endTime).1.length = 1 ∧
    (∀ entry ∈ (wrap name op input startTime endTime).1,
      fieldVal "function_name" entry.fields = some (.str name) ∧
      ∃ d : Int, fieldVal "duration_ms" entry.fields = some (.num d) ∧ 0 ≤ d) ∧
    (∀ v, op input = .ok v →
      (wrap name op input startTime endTime).2 = .ok v ∧
      ∀ entry ∈ (wrap name op input startTime endTime).1,
        entry.level = .info ∧ fieldVal "error" entry.fields = none) ∧
    (∀ e, op input = .error e →
      (wrap name op input startTime endTime).2 = .error e ∧
      ∀ entry ∈ (wrap name op input startTime endTime).1,
        entry.level = .error ∧
        fieldVal "error" entry.fields = some (.str e)) := by
  cases hop : op input with
  | ok v =>
    refine ⟨by simp [wrap, hop], by simp [wrap, hop], ?_, ?_, ?_⟩
    · intro entry hmem
      simp only [wrap, hop, List.mem_singleton] at hmem
      subst hmem
      exact ⟨rfl, (endTime : Int) - (startTime : Int), rfl, by omega⟩
    · intro v2 hv2
      refine ⟨by simp [wrap, hop]; exact Except.ok.inj hv2, ?_⟩
      intro entry hmem
      simp only [wrap, hop, List.mem_singleton] at hmem
      subst hmem
      exact ⟨rfl, rfl⟩
    · intro e he
      simp at he
  | error e0 =>
    refine ⟨by simp [wrap, hop], by simp [wrap, hop], ?_, ?_, ?_⟩
    · intro entry hmem
      simp only [wrap, hop, List.mem_singleton] at hmem
      subst hmem
      exact ⟨rfl, (endTime : Int) - (startTime : Int), rfl, by omega⟩
    · intro v hv
      simp at hv
    · intro e he
      have he0 : e0 = e := Except.error.inj he
      subst he0
      refine ⟨by simp [wrap, hop], ?_⟩
      intro entry hmem
      simp only [wrap, hop, List.mem_singleton] at hmem
      subst hmem
      exact ⟨rfl, rfl⟩

/-- Witness for C4: wrapping a concrete addition succeeding at clock instants
3 and 5, and a concrete failing operation, discharges the wrapper
contract. -/
theorem wrap_contract_witness :
    (3 ≤ 5 ∧
      (wrap "testFn" opOkW 1 3 5).2 = opOkW 1 ∧
      (wrap "testFn" opOkW 1 3 5).1.length = 1) ∧
    ((wrap "failFn" opFailW 1 3 5).2 = opFailW 1 ∧
      ∀ entry ∈ (wrap "failFn" opFailW 1 3 5).1,
        entry.level = .error ∧
        fieldVal "error" entry.fields = some (.str "fail")) := by
  constructor
  · have h := wrap_contract "testFn" opOkW 1 3 5 (by omega)
    exact ⟨by omega, h.1, h.2.1⟩
  · have h := wrap_contract "failFn" opFailW 1 3 5 (by omega)
    exact ⟨h.1, (h.2.2.2.2 "fail" rfl).2⟩

/-- Counterexample to claim C1: the specification's stated order puts cf
labels before configuration default labels, but the source spreads
`defaultLabels` first and `cfLabels` second, so on a key conflict the cf
label wins where the claimed order makes the default label win. -/
theorem label_order_claim_counterexample :
    (generateLokiMessage cfgC1x "info" [] [] 0).stream ≠
      specOrderStream cfgC1x "info" [] [] ∧
    lookupKey "cf_colo" (generateLokiMessage cfgC1x "info" [] [] 0).stream =
      some "Y" ∧
    lookupKey "cf_colo" (specOrderStream cfgC1x "info" [] []) = some "X" := by
  refine ⟨?_, by decide, by decide⟩
  decide

/-- Claim C1 amended: the stream's label set is built with later stages
winning on key conflict in the order level label, configuration default
labels, configuration cf labels, request-derived labels (a stage absent from
the shipped source, modelled from the spec), call-site labels; lookups
resolve in exactly that priority, the encoder with an empty request stage is
the source's `generateLokiMessage`, and the spec's example — default
`a=1`, request-derived `a=2, b=2`, call-site `a=3` — yields exactly the
labels `level`, `a=3`, `b=2`. -/
theorem label_precedence_amended (cfg : LokiConfig) (logLevel : String)
    (message : List (String × Jx)) (requestLabels labels : Labels) (now : Nat) :
    (∀ k, lookupKey k
        (generateLokiMessageWithRequest cfg logLevel message requestLabels
          labels now).stream =
      (lastVal labels k).orElse (fun _ =>
        (lastVal requestLabels k).orElse (fun _ =>
          (lastVal (cfLabelsOf cfg.cf) k).orElse (fun _ =>
            (lastVal cfg.defaultLabels k).orElse (fun _ =>
              lookupKey k [("level", logLevel)]))))) ∧
    generateLokiMessageWithRequest cfg logLevel message [] labels now =
      generateLokiMessage cfg logLevel message labels now ∧
    (generateLokiMessageWithRequest { defaultLabels := [("a", "1")] } "info" []
        [("a", "2"), ("b", "2")] [("a", "3")] 0).stream =
      [("level", "info"), ("a", "3"), ("b", "2")] := by
  refine ⟨?_, rfl, by decide⟩
  intro k
  unfold generateLokiMessageWithRequest
  rw [lookup_objExtend, lookup_objExtend, lookup_objExtend, lookup_objExtend]

/-- Counterexample to claim C10: a host explicitly supplied as the empty
string does not take precedence over the environment — the `||` fallback
treats it as absent and LOKI_HOST wins. -/
theorem explicit_config_counterexample :
    cfgEmptyHost.lokiHost = some "" ∧
    envHostOnly "LOKI_HOST" = some "envhost" ∧
    (mergedConfig cfgEmptyHost envHostOnly).lokiHost = some "envhost" ∧
    (mergedConfig cfgEmptyHost envHostOnly).lokiHost ≠ cfgEmptyHost.lokiHost := by
  refine ⟨rfl, rfl, by decide, by decide⟩

/-- Claim C10 amended: at construction a non-empty explicitly supplied host,
user or token takes precedence over the environment variables, while an empty
or absent one falls through — the host first to LOKI_HOST (when non-empty)
and then to LOKI_URL with a leading http:// or https:// prefix stripped, the
user to LOKI_USER and the token to LOKI_TOKEN. -/
theorem config_resolution_amended (cfg : LokiConfig)
    (env : String → Option String) :
    (truthyStr cfg.lokiHost = true →
      (mergedConfig cfg env).lokiHost = cfg.lokiHost) ∧
    (truthyStr cfg.lokiHost = false → truthyStr (env "LOKI_HOST") = true →
      (mergedConfig cfg env).lokiHost = env "LOKI_HOST") ∧
    (truthyStr cfg.lokiHost = false → truthyStr (env "LOKI_HOST") = false →
      (mergedConfig cfg env).lokiHost = (env "LOKI_URL").map stripScheme) ∧
    (truthyStr cfg.lokiUser = true →
      (mergedConfig cfg env).lokiUser = cfg.lokiUser) ∧
    (truthyStr cfg.lokiUser = false →
      (mergedConfig cfg env).lokiUser = env "LOKI_USER") ∧
    (truthyStr cfg.lokiToken = true →
      (mergedConfig cfg env).lokiToken = cfg.lokiToken) ∧
    (truthyStr cfg.lokiToken = false →
      (mergedConfig cfg env).lokiToken = env "LOKI_TOKEN") ∧
    (∀ rest : String, stripScheme ("https://" ++ rest) = rest ∧
      stripScheme ("http://" ++ rest) = rest) := by
  refine ⟨?_, ?_, ?_, ?_, ?_, ?_, ?_, ?_⟩
  · intro h1
    simp [mergedConfig, jsOrStr, h1]
  · intro h1 h2
    simp [mergedConfig, jsOrStr, h1, h2]
  · intro h1 h2
    simp [mergedConfig, jsOrStr, h1, h2]
  · intro h1
    simp [mergedConfig, jsOrStr, h1]
  · intro h1
    simp [mergedConfig, jsOrStr, h1]
  · intro h1
    simp [mergedConfig, jsOrStr, h1]
  · intro h1
    simp [mergedConfig, jsOrStr, h1]
  · intro rest
    exact ⟨rfl, rfl⟩

/-- Witness for C10's amended theorem: with a non-empty host "h" and an empty
environment the explicit host survives; with an absent host LOKI_HOST is
taken; scheme stripping removes the LOKI_URL prefix. -/
theorem config_resolution_amended_witness :
    (truthyStr cfgC9.lokiHost = true ∧
      (mergedConfig cfgC9 (fun _ => none)).lokiHost = cfgC9.lokiHost) ∧
    (truthyStr ({} : LokiConfig).lokiHost = false ∧
      truthyStr (envHostOnly "LOKI_HOST") = true ∧
      (mergedConfig {} envHostOnly).lokiHost = envHostOnly "LOKI_HOST") ∧
    stripScheme ("https://" ++ "example.com") = "example.com" :=
  ⟨⟨rfl, (config_resolution_amended cfgC9 (fun _ => none)).1 rfl⟩,
   ⟨rfl, rfl, (config_resolution_amended {} envHostOnly).2.1 rfl rfl⟩,
   ((config_resolution_amended {} envHostOnly).2.2.2.2.2.2.2 "example.com").1⟩

theorem stringify_push_body (ts : Nat) :
    stringifyLokiMessage ⟨[("level", "info")], natRep ts ++ "000000",
        "\x7b\"test\":\"message\"\x7d"⟩ =
      "\x7b\"streams\":[\x7b\"stream\":\x7b\"level\":\"info\"\x7d,\"values\":[[\"" ++
        natRep ts ++
        "000000\",\"\x7b\\\"test\\\":\\\"message\\\"\x7d\"]]\x7d]\x7d" := by
  unfold stringifyLokiMessage
  dsimp only
  rw [show quoteStr (natRep ts ++ "000000") =
      "\"" ++ (natRep ts ++ "000000") ++ "\"" from by
    unfold quoteStr; rw [escapeString_natRep_pad]]
  rw [show stringifyLabels [("level", "info")] = "\x7b\"level\":\"info\"\x7d" from
    by decide]
  rw [show quoteStr "\x7b\"test\":\"message\"\x7d" =
      "\"\x7b\\\"test\\\":\\\"message\\\"\x7d\"" from by decide]
  simp only [strAppendAssoc]
  rw [show ("000000" : String) ++ ("\"" ++ ("," ++
      ("\"\x7b\\\"test\\\":\\\"message\\\"\x7d\"" ++ "]]\x7d]\x7d"))) =
      "000000\",\"\x7b\\\"test\\\":\\\"message\\\"\x7d\"]]\x7d]\x7d" from by decide]
  rw [show ("\x7b\"streams\":[\x7b\"stream\":\x7b\"level\":\"info\"\x7d,\"values\":[[\"" :
      String) = "\x7b\"streams\":[\x7b\"stream\":" ++
      ("\x7b\"level\":\"info\"\x7d" ++ (",\"values\":[[" ++ "\"")) from by decide]
  simp only [strAppendAssoc]

/-- Claim C9: with host h, user u, token t, the call `info(\x7btest:"message"\x7d)`
at clock instant ts echoes the serialized message and makes exactly one POST
to `https://h/loki/api/v1/push` with JSON content type and Basic
authorization for `u:t`, whose body is the single-stream envelope with the
`level:"info"` label and the value pair of ts followed by six zeros and the
serialized message. -/
theorem end_to_end_push (ts : Nat) :
    log cfgC9 .info (.ofObj [("test", Jx.str "message")]) [] none ts (fun _ => .ok) =
      { trace := [.consoleLog "\x7b\"test\":\"message\"\x7d",
          .fetchCall "https://h/loki/api/v1/push" "POST"
            [("Content-Type", "application/json"),
             ("Authorization", "Basic " ++ btoa "u:t")]
            ("\x7b\"streams\":[\x7b\"stream\":\x7b\"level\":\"info\"\x7d,\"values\":[[\"" ++
              natRep ts ++
              "000000\",\"\x7b\\\"test\\\":\\\"message\\\"\x7d\"]]\x7d]\x7d")],
        handed := none, rejection := none } ∧
    countFetch (allEvents (log cfgC9 .info (.ofObj [("test", Jx.str "message")])
      [] none ts (fun _ => .ok))) = 1 := by
  have he : encodeMessage cfgC9 .info
      (normalize (.ofObj [("test", Jx.str "message")])) [] ts =
      ⟨[("level", "info")], natRep ts ++ "000000", "\x7b\"test\":\"message\"\x7d"⟩ := by
    show generateLokiMessage cfgC9 "info" [("test", Jx.str "message")] [] ts =
      ⟨[("level", "info")], natRep ts ++ "000000", "\x7b\"test\":\"message\"\x7d"⟩
    unfold generateLokiMessage
    simp only [LokiMessage.mk.injEq]
    exact ⟨by decide, trivial, by decide⟩
  have hsend := sendWithRetry_firstOk cfgC9
    ⟨[("level", "info")], natRep ts ++ "000000", "\x7b\"test\":\"message\"\x7d"⟩
    (fun _ => .ok) (by decide) 0 (fun j hj => absurd hj (by omega)) rfl (Nat.zero_le _)
  have hmain : log cfgC9 .info (.ofObj [("test", Jx.str "message")]) [] none ts
      (fun _ => .ok) =
      { trace := [.consoleLog "\x7b\"test\":\"message\"\x7d",
          .fetchCall "https://h/loki/api/v1/push" "POST"
            [("Content-Type", "application/json"),
             ("Authorization", "Basic " ++ btoa "u:t")]
            ("\x7b\"streams\":[\x7b\"stream\":\x7b\"level\":\"info\"\x7d,\"values\":[[\"" ++
              natRep ts ++
              "000000\",\"\x7b\\\"test\\\":\\\"message\\\"\x7d\"]]\x7d]\x7d")],
        handed := none, rejection := none } := by
    rw [log_eq_of_accepted cfgC9 .info (.ofObj [("test", Jx.str "message")]) []
      none ts (fun _ => .ok) (by decide) rfl]
    rw [he, hsend]
    unfold fetchEvent
    rw [stringify_push_body ts]
    rfl
  exact ⟨hmain, by rw [hmain]; rfl⟩

end Cloki
